import Mathlib

/-
Verification of the file-inventory subsystem of pysat (`pysat/_files.py`).

The catalog kept by the `Files` class is a pandas Series of filenames indexed
by datetime.  We model it as a `List (Nat × String)`: datetimes are `Nat`,
filenames are `String`.  The pieces of mutable object state that the claims
touch (the attached catalog, the two persistence slots on disk and in memory,
the flags, and the result of the external discovery callback) are gathered in
a `FilesState` record; each method of the class becomes a function from
`FilesState` to a new state, with logging returned explicitly and Python
exceptions modelled by `Except`.
-/

namespace PysatFiles

/-- A catalog entry, as one row of the pandas Series: (datetime, filename). -/
abbrev Entry := Nat × String

/-- Python exceptions that the modelled code paths can raise. -/
inductive PyError where
  /-- Evaluation of an unbound name, as in `len(info)` inside `Files.refresh`. -/
  | nameError (n : String)
  /-- pandas positional lookup out of bounds, as in `self.files.iloc[0]` on an
  empty Series. -/
  | indexError
  /-- `ValueError` raised by `Files.get_index` after a failed retry; carries the
  requested filename and the example filename put into the message. -/
  | valueError (fname exampleName : String)
  deriving Repr, DecidableEq

/-- Messages emitted through `logger` (or `print`) by the modelled methods. -/
inductive LogMsg where
  /-- The search announcement logged at the top of `Files.refresh`. -/
  | searching
  /-- The found-count logged by `Files.refresh` on a non-empty result. -/
  | foundCount (n : Nat)
  /-- The no-matches warning logged by `Files.refresh` on an empty result. -/
  | noMatches
  /-- The duplicate-datetimes warning logged by `Files._attach_files`. -/
  | duplicateWarning
  /-- The duplicated datetimes logged by `Files._attach_files`. -/
  | duplicateKeys (ks : List Nat)
  /-- The count printed by `Files._filter_empty_files` when entries drop. -/
  | removedEmpty (n : Nat)
  deriving Repr, DecidableEq

/-- The state of one `Files` instance together with the parts of its
environment that its methods read: the filesystem slots under `home_path`
(primary and previous stored-file lists), the in-memory slots kept when
`write_to_disk` is `False`, the sizes of data files (for
`_filter_empty_files`), and what the discovery callback `_list_files_rtn`
currently returns.

A disk slot is `none` when the file does not exist; `some l` models a CSV
file holding the rows `l`, so the file has size greater than zero exactly
when `l` is non-empty (writing an empty Series with `header=False` produces
a zero-byte file). -/
structure FilesState where
  /-- `self._inst.multi_file_day`. -/
  multiFileDay : Bool
  /-- `self.ignore_empty_files`. -/
  ignoreEmptyFiles : Bool
  /-- `self.write_to_disk`. -/
  writeToDisk : Bool
  /-- `self.data_path` (normalised by `__init__` to end with a separator). -/
  dataPath : String
  /-- `self.files`, the attached catalog. -/
  files : List Entry
  /-- Content of `home_path/<stored_file_name>` on disk, if the file exists. -/
  diskPrimary : Option (List Entry)
  /-- Content of `home_path/previous_<stored_file_name>` on disk. -/
  diskPrevious : Option (List Entry)
  /-- `self._current_file_list` (memory slot used when not writing to disk). -/
  currentFileList : List Entry
  /-- `self._previous_file_list` (memory slot used when not writing to disk). -/
  previousFileList : List Entry
  /-- Full paths of data files that exist on disk with size greater than 0. -/
  nonemptyPaths : List String
  /-- What `self._inst._list_files_rtn(tag, inst_id, data_path, format_str)`
  returns: a raw datetime-indexed Series of filenames. -/
  discovery : List Entry
  deriving Repr, DecidableEq

/-- Insert an entry into a list already sorted by datetime, after any entries
with a smaller or equal datetime.  Building block for the model of
`Series.sort_index`. -/
def insertByKey (e : Entry) : List Entry → List Entry
  | [] => [e]
  | x :: xs => if e.1 < x.1 then e :: x :: xs else x :: insertByKey e xs

/-- Model of `Series.sort_index()`: sort the catalog by datetime ascending. -/
def sortByKey : List Entry → List Entry
  | [] => []
  | x :: xs => insertByKey x (sortByKey xs)

/-- Insert a key into a sorted list of distinct keys, keeping it sorted and
duplicate-free.  Building block for the model of `np.unique`. -/
def insertKey (k : Nat) : List Nat → List Nat
  | [] => [k]
  | x :: xs =>
      if k < x then k :: x :: xs
      else if k = x then x :: xs
      else x :: insertKey k xs

/-- The sorted list of distinct datetimes of a catalog: the values returned by
`np.unique(files_info.index)`. -/
def sortedUniqueKeys (l : List Entry) : List Nat :=
  l.foldr (fun e acc => insertKey e.1 acc) []

/-- The datetimes that occur more than once, as logged by `_attach_files` via
`files_info.index[files_info.index.duplicated()].unique()`. -/
def duplicatedKeys (l : List Entry) : List Nat :=
  (sortedUniqueKeys l).filter (fun k => decide (2 ≤ (l.map Prod.fst).count k))

/-- Model of `np.unique(files_info.index, return_index=True)` followed by
`files_info.iloc[idx[1]]`: for each distinct datetime in ascending order,
the first entry of `l` carrying that datetime. -/
def npUniqueFirst (l : List Entry) : List Entry :=
  (sortedUniqueKeys l).filterMap (fun k => l.find? (fun e => e.1 == k))

/-- Model of `Files._filter_empty_files`: keep the catalog entries whose data
file exists on disk with a size greater than zero, and report how many were
dropped. -/
def filterEmptyFiles (st : FilesState) : FilesState × List LogMsg :=
  let keep := st.files.filter (fun e => (st.dataPath ++ e.2) ∈ st.nonemptyPaths)
  let dropped := st.files.length - keep.length
  ({ st with files := keep },
   if 0 < dropped then [LogMsg.removedEmpty dropped] else [])

/-- Model of `Files._attach_files`.  On a non-empty input: when the instrument
does not declare multi-file-day support and the datetimes are not unique, warn,
log the duplicated datetimes, and keep the first occurrence of each datetime
(`np.unique` with `return_index=True`); then sort by datetime and, if
`ignore_empty_files` is set, drop entries whose data file is absent or empty.
On an empty input the catalog is simply replaced by it. -/
def attachFiles (st : FilesState) (filesInfo : List Entry) :
    FilesState × List LogMsg :=
  if filesInfo.isEmpty then
    ({ st with files := filesInfo }, [])
  else
    let hasDup : Bool := (sortedUniqueKeys filesInfo).length != filesInfo.length
    let dedup : Bool := !st.multiFileDay && hasDup
    let logs :=
      if dedup then
        [LogMsg.duplicateWarning, LogMsg.duplicateKeys (duplicatedKeys filesInfo)]
      else []
    let kept := if dedup then npUniqueFirst filesInfo else filesInfo
    let st1 := { st with files := sortByKey kept }
    if st.ignoreEmptyFiles then
      let p := filterEmptyFiles st1
      (p.1, logs ++ p.2)
    else (st1, logs)

/-- Model of `Files._load`: the stored file list is returned only when the
corresponding file under `home_path` exists with size greater than zero; in
that case disk mode reads the CSV back while memory mode
(`write_to_disk=False`) returns the corresponding in-memory slot.  Otherwise
an empty Series is returned. -/
def loadList (st : FilesState) (prevVersion : Bool) : List Entry :=
  let disk := if prevVersion then st.diskPrevious else st.diskPrimary
  match disk with
  | some content =>
      if 0 < content.length then
        if st.writeToDisk then content
        else if prevVersion then st.previousFileList else st.currentFileList
      else []
  | none => []

/-- Model of `Files._store`: reload the stored list, flag a difference first
by length and then by elementwise equality, and if flagged either rewrite both
disk slots (previous gets the reloaded list, primary gets the current catalog)
or, when `write_to_disk` is `False`, update the two in-memory slots instead. -/
def storeList (st : FilesState) : FilesState :=
  let storedFiles := loadList st false
  let newFlag : Bool :=
    if storedFiles.length ≠ st.files.length then true
    else decide (storedFiles ≠ st.files)
  if newFlag then
    if st.writeToDisk then
      { st with diskPrevious := some storedFiles, diskPrimary := some st.files }
    else
      { st with previousFileList := storedFiles, currentFileList := st.files }
  else st

/-- Model of `os.path.join(path, '')`: ensure a trailing separator. -/
def joinSep (p : String) : String :=
  if p.endsWith "/" then p else p ++ "/"

/-- Model of `Files._remove_data_dir_path`: strip the data path from each
filename by `x.split(data_path_with_separator)[-1]`. -/
def removeDataDirPath (st : FilesState) (fs : List Entry) : List Entry :=
  fs.map (fun e => (e.1, (e.2.splitOn (joinSep st.dataPath)).getLastD ""))

/-- Model of `Files.refresh`.  After announcing the search, the discovery
callback result is stripped of the data path.  On an empty result the
no-matches warning is logged and the list is attached and stored.  On a
non-empty result the source evaluates `len(info)` for its found-count log
message, but no name `info` is bound anywhere in the function (its local
variable is `new_files`), so Python raises `NameError` before reaching
`_attach_files`. -/
def refresh (st : FilesState) : Except PyError (FilesState × List LogMsg) :=
  let logs0 := [LogMsg.searching]
  let newFiles := removeDataDirPath st st.discovery
  if newFiles.isEmpty then
    let logs1 := logs0 ++ [LogMsg.noMatches]
    let p := attachFiles st newFiles
    Except.ok (storeList p.1, logs1 ++ p.2)
  else
    Except.error (PyError.nameError "info")

/-- Model of `Files.get_new`: refresh, reload the primary and the previous
slot, and keep the entries of the new list whose filename does not occur
among the filenames of the old list (`-new_file_series.isin(old_file_series)`
tests Series values, which are the filenames). -/
def getNew (st : FilesState) :
    Except PyError (List Entry × FilesState × List LogMsg) :=
  match refresh st with
  | Except.error e => Except.error e
  | Except.ok (st1, logs) =>
      let newFileSeries := loadList st1 false
      let oldFileSeries := loadList st1 true
      let newFiles := newFileSeries.filter
        (fun e => !((oldFileSeries.map Prod.snd).contains e.2))
      Except.ok (newFiles, st1, logs)

/-- Model of `Files.get_index`: the first position whose filename matches; on
a miss, one `refresh` and one retry; on a second miss the source builds a
`ValueError` message containing the requested name and `self.files.iloc[0]`
as an example, which itself raises `IndexError` when the catalog is empty. -/
def getIndex (st : FilesState) (fname : String) :
    Except PyError (Nat × FilesState × List LogMsg) :=
  match st.files.findIdx? (fun e => e.2 == fname) with
  | some i => Except.ok (i, st, [])
  | none =>
      match refresh st with
      | Except.error e => Except.error e
      | Except.ok (st1, logs) =>
          match st1.files.findIdx? (fun e => e.2 == fname) with
          | some i => Except.ok (i, st1, logs)
          | none =>
              match st1.files with
              | [] => Except.error PyError.indexError
              | x :: _ => Except.error (PyError.valueError fname x.2)

/-- Model of `self.files.loc[start:stop]` on the (monotonic) datetime index:
pandas label slicing is inclusive of both endpoints. -/
def locSlice (files : List Entry) (start stop : Nat) : List Entry :=
  files.filter (fun e => decide (start ≤ e.1) && decide (e.1 ≤ stop))

/-- Model of `self.files.iloc[start:stop]` for non-negative bounds. -/
def ilocSlice (files : List Entry) (start stop : Nat) : List Entry :=
  (files.drop start).take (stop - start)

/-- Model of `Files.__getitem__` on a slice whose start bound is a datetime:
the label slice is taken inclusively, then the last element is dropped when
its datetime is greater than or equal to the requested stop (for a singleton,
an empty Series is returned in that case). -/
def getitemDatetimeSlice (files : List Entry) (start stop : Nat) : List Entry :=
  let out := locSlice files start stop
  if 1 < out.length then
    if stop ≤ (out.getLastD (0, "")).1 then out.dropLast else out
  else if out.length = 1 then
    if stop ≤ (out.headD (0, "")).1 then [] else out
  else out

/-- Model of `Files.__getitem__` on a slice with integer bounds: plain
positional slicing, no datetime-based filtering. -/
def getitemIntSlice (files : List Entry) (start stop : Nat) : List Entry :=
  ilocSlice files start stop

/-- Recursive restatement of the exclusive-stop step of `__getitem__`: drop
the final element exactly when its datetime is at least `b`.  Proved equal to
the branchy form used in `getitemDatetimeSlice`. -/
def dropIfLastGe (b : Nat) : List Entry → List Entry
  | [] => []
  | [x] => if b ≤ x.1 then [] else [x]
  | x :: y :: t => x :: dropIfLastGe b (y :: t)

/-- One record of the table produced by the filename parser, before it is
flattened into a datetime-indexed Series of filenames: the version, revision
and cycle fields live in the parsed table (and in the filename), not in the
Series that `_attach_files` receives. -/
structure ParsedRecord where
  datetime : Nat
  version : Nat
  revision : Nat
  cycle : Nat
  filename : String
  deriving Repr, DecidableEq

/-- The catalog row contributed by a parsed record. -/
def toEntry (r : ParsedRecord) : Entry := (r.datetime, r.filename)

/-- Whether a modelled disk slot holds a file that exists with size greater
than zero (`os.path.isfile(fname) and os.path.getsize(fname) > 0`). -/
def hasSizedFile : Option (List Entry) → Bool
  | some c => !c.isEmpty
  | none => false

/-- The condition under which `_attach_files` deduplicates: multi-file-day
support not declared and the datetimes not unique. -/
def dedupFlag (st : FilesState) (info : List Entry) : Bool :=
  !st.multiFileDay && ((sortedUniqueKeys info).length != info.length)

/-- A baseline instance: no duplicates allowed, nothing attached, nothing on
disk, empty discovery. -/
def stPlain : FilesState :=
  { multiFileDay := false, ignoreEmptyFiles := false, writeToDisk := true,
    dataPath := "p/", files := [], diskPrimary := none, diskPrevious := none,
    currentFileList := [], previousFileList := [], nonemptyPaths := [],
    discovery := [] }

/-- An instance whose discovery callback finds one file. -/
def stFound : FilesState :=
  { stPlain with discovery := [(1, "p/f.dat")] }

/-- An instance declaring multi-file-day support. -/
def stMulti : FilesState :=
  { stPlain with multiFileDay := true }

/-- An instance with an attached two-file catalog and non-empty discovery. -/
def stCatalog : FilesState :=
  { stFound with files := [(1, "a.dat"), (2, "b.dat")] }

/-- An instance with an attached catalog but empty discovery. -/
def stCatalogEmptyDisc : FilesState :=
  { stPlain with files := [(1, "a.dat")] }

/-- An instance with a stale primary slot and non-empty discovery, for the
repeated `get_new` scenario. -/
def stTwice : FilesState :=
  { stFound with diskPrimary := some [(9, "old.dat")] }

/-- An instance with an attached catalog differing from the stored one. -/
def stDiffer : FilesState :=
  { stPlain with files := [(1, "a.dat")] }

/-- Memory-mode instance whose primary disk file exists and is non-empty. -/
def stMemDisk : FilesState :=
  { multiFileDay := false, ignoreEmptyFiles := false, writeToDisk := false,
    dataPath := "p/", files := [(1, "x.dat")],
    diskPrimary := some [(1, "x.dat")], diskPrevious := none,
    currentFileList := [(1, "x.dat")], previousFileList := [(9, "z.dat")],
    nonemptyPaths := [], discovery := [] }

/-- The same instance with the primary disk file absent. -/
def stMemNoDisk : FilesState :=
  { stMemDisk with diskPrimary := none }

/-- A three-entry catalog with datetimes D0 = 0, D1 = 1, D2 = 2. -/
def catalog3 : List Entry := [(0, "f0.dat"), (1, "f1.dat"), (2, "f2.dat")]

/-- Two parsed records sharing a datetime, version 1 listed before version 2. -/
def recLowVersion : ParsedRecord :=
  { datetime := 5, version := 1, revision := 0, cycle := 0,
    filename := "a_v01.dat" }

/-- The higher-version record for the shared datetime. -/
def recHighVersion : ParsedRecord :=
  { datetime := 5, version := 2, revision := 0, cycle := 0,
    filename := "a_v02.dat" }

/-- Membership in an ordered insertion. -/
theorem mem_insertByKey (e a : Entry) (l : List Entry) :
    a ∈ insertByKey e l ↔ a = e ∨ a ∈ l := by
  induction l with
  | nil => simp [insertByKey]
  | cons x xs ih =>
      by_cases h : e.1 < x.1
      · simp only [insertByKey, if_pos h, List.mem_cons]
      · simp only [insertByKey, if_neg h, List.mem_cons, ih]
        tauto

/-- Ordered insertion is a permutation of consing. -/
theorem perm_insertByKey (e : Entry) (l : List Entry) :
    (insertByKey e l).Perm (e :: l) := by
  induction l with
  | nil => simp [insertByKey]
  | cons x xs ih =>
      by_cases h : e.1 < x.1
      · simp [insertByKey, h]
      · simp only [insertByKey, if_neg h]
        exact (ih.cons x).trans (List.Perm.swap e x xs)

/-- The model of `sort_index` permutes the catalog. -/
theorem perm_sortByKey (l : List Entry) : (sortByKey l).Perm l := by
  induction l with
  | nil => simp [sortByKey]
  | cons x xs ih =>
      exact (perm_insertByKey x (sortByKey xs)).trans (ih.cons x)

/-- Ordered insertion preserves sortedness by datetime. -/
theorem sorted_le_insertByKey (e : Entry) (l : List Entry)
    (h : l.Pairwise (fun p q => p.1 ≤ q.1)) :
    (insertByKey e l).Pairwise (fun p q => p.1 ≤ q.1) := by
  induction l with
  | nil => simp [insertByKey]
  | cons x xs ih =>
      rcases List.pairwise_cons.mp h with ⟨hx, hxs⟩
      by_cases hlt : e.1 < x.1
      · simp only [insertByKey, if_pos hlt]
        refine List.pairwise_cons.mpr ⟨?_, h⟩
        intro z hz
        rcases List.mem_cons.mp hz with rfl | hz'
        · exact Nat.le_of_lt hlt
        · exact Nat.le_of_lt (Nat.lt_of_lt_of_le hlt (hx z hz'))
      · simp only [insertByKey, if_neg hlt]
        refine List.pairwise_cons.mpr ⟨?_, ih hxs⟩
        intro z hz
        rcases (mem_insertByKey e z xs).mp hz with rfl | hz'
        · exact Nat.le_of_not_lt hlt
        · exact hx z hz'

/-- The model of `sort_index` sorts the catalog by datetime (non-strictly). -/
theorem sorted_le_sortByKey (l : List Entry) :
    (sortByKey l).Pairwise (fun p q => p.1 ≤ q.1) := by
  induction l with
  | nil => simp [sortByKey]
  | cons x xs ih => exact sorted_le_insertByKey x (sortByKey xs) ih

/-- A non-strictly sorted catalog with pairwise-distinct datetimes is
strictly sorted. -/
theorem strict_of_le_nodupKeys (l : List Entry)
    (hle : l.Pairwise (fun p q => p.1 ≤ q.1))
    (hnd : (l.map Prod.fst).Nodup) :
    l.Pairwise (fun p q => p.1 < q.1) := by
  have hne : l.Pairwise (fun p q => p.1 ≠ q.1) := List.pairwise_map.mp hnd
  exact (hle.and hne).imp fun h => Nat.lt_of_le_of_ne h.1 h.2

/-- Membership in key insertion. -/
theorem mem_insertKey (k a : Nat) (ks : List Nat) :
    a ∈ insertKey k ks ↔ a = k ∨ a ∈ ks := by
  induction ks with
  | nil => simp [insertKey]
  | cons x xs ih =>
      by_cases h1 : k < x
      · simp only [insertKey, if_pos h1, List.mem_cons]
      · by_cases h2 : k = x
        · simp only [insertKey, if_neg h1, if_pos h2, List.mem_cons]
          subst h2
          tauto
        · simp only [insertKey, if_neg h1, if_neg h2, List.mem_cons, ih]
          tauto

/-- Key insertion preserves strict sortedness. -/
theorem sorted_insertKey (k : Nat) (ks : List Nat)
    (h : ks.Pairwise (fun a b => a < b)) :
    (insertKey k ks).Pairwise (fun a b => a < b) := by
  induction ks with
  | nil => simp [insertKey]
  | cons x xs ih =>
      rcases List.pairwise_cons.mp h with ⟨hx, hxs⟩
      by_cases h1 : k < x
      · simp only [insertKey, if_pos h1]
        refine List.pairwise_cons.mpr ⟨?_, h⟩
        intro z hz
        rcases List.mem_cons.mp hz with rfl | hz'
        · exact h1
        · exact Nat.lt_trans h1 (hx z hz')
      · by_cases h2 : k = x
        · simp only [insertKey, if_neg h1, if_pos h2]
          exact h
        · simp only [insertKey, if_neg h1, if_neg h2]
          refine List.pairwise_cons.mpr ⟨?_, ih hxs⟩
          intro z hz
          rcases (mem_insertKey k z xs).mp hz with rfl | hz'
          · exact Nat.lt_of_le_of_ne (Nat.le_of_not_lt h1) fun hh => h2 hh.symm
          · exact hx z hz'

/-- The distinct datetimes of a catalog are strictly sorted, as `np.unique`
returns them. -/
theorem sorted_sortedUniqueKeys (l : List Entry) :
    (sortedUniqueKeys l).Pairwise (fun a b => a < b) := by
  induction l with
  | nil => simp [sortedUniqueKeys]
  | cons e t ih => exact sorted_insertKey e.1 (sortedUniqueKeys t) ih

/-- The distinct datetimes of a catalog are exactly its datetimes. -/
theorem mem_sortedUniqueKeys (k : Nat) (l : List Entry) :
    k ∈ sortedUniqueKeys l ↔ k ∈ l.map Prod.fst := by
  induction l with
  | nil => simp [sortedUniqueKeys]
  | cons e t ih =>
      simp only [sortedUniqueKeys, List.foldr_cons, List.map_cons,
        List.mem_cons]
      rw [show (List.foldr (fun e acc => insertKey e.1 acc) [] t)
            = sortedUniqueKeys t from rfl] at *
      rw [mem_insertKey, ih]

/-- Inserting a key already present in a strictly sorted key list leaves the
length unchanged. -/
theorem length_insertKey_of_mem (k : Nat) (ks : List Nat)
    (hs : ks.Pairwise (fun a b => a < b)) (hm : k ∈ ks) :
    (insertKey k ks).length = ks.length := by
  induction ks with
  | nil => cases hm
  | cons x xs ih =>
      rcases List.pairwise_cons.mp hs with ⟨hx, hxs⟩
      rcases List.mem_cons.mp hm with rfl | hm'
      · simp [insertKey, Nat.lt_irrefl]
      · have hxk : x < k := hx k hm'
        have h1 : ¬ k < x := Nat.not_lt.mpr (Nat.le_of_lt hxk)
        have h2 : k ≠ x := Nat.ne_of_gt hxk
        simp only [insertKey, if_neg h1, if_neg h2, List.length_cons]
        rw [ih hxs hm']

/-- Inserting a fresh key grows a key list by one. -/
theorem length_insertKey_of_not_mem (k : Nat) (ks : List Nat)
    (hm : k ∉ ks) :
    (insertKey k ks).length = ks.length + 1 := by
  induction ks with
  | nil => simp [insertKey]
  | cons x xs ih =>
      have h2 : k ≠ x := fun hh => hm (hh ▸ List.mem_cons_self x xs)
      have hm' : k ∉ xs := fun hh => hm (List.mem_cons_of_mem x hh)
      by_cases h1 : k < x
      · simp [insertKey, h1]
      · simp only [insertKey, if_neg h1, if_neg h2, List.length_cons]
        rw [ih hm']

/-- A catalog has at least as many entries as distinct datetimes. -/
theorem length_sortedUniqueKeys_le (l : List Entry) :
    (sortedUniqueKeys l).length ≤ l.length := by
  induction l with
  | nil => simp [sortedUniqueKeys]
  | cons e t ih =>
      show (insertKey e.1 (sortedUniqueKeys t)).length ≤ t.length + 1
      by_cases hm : e.1 ∈ sortedUniqueKeys t
      · rw [length_insertKey_of_mem e.1 _ (sorted_sortedUniqueKeys t) hm]
        exact Nat.le_succ_of_le ih
      · rw [length_insertKey_of_not_mem e.1 _ hm]
        exact Nat.succ_le_succ ih

/-- When a catalog has as many distinct datetimes as entries, its datetimes
are pairwise distinct. -/
theorem nodupKeys_of_full_length (l : List Entry)
    (h : (sortedUniqueKeys l).length = l.length) :
    (l.map Prod.fst).Nodup := by
  induction l with
  | nil => simp
  | cons e t ih =>
      have h' : (insertKey e.1 (sortedUniqueKeys t)).length = t.length + 1 := h
      by_cases hm : e.1 ∈ sortedUniqueKeys t
      · rw [length_insertKey_of_mem e.1 _ (sorted_sortedUniqueKeys t) hm] at h'
        have := length_sortedUniqueKeys_le t
        omega
      · rw [length_insertKey_of_not_mem e.1 _ hm] at h'
        have ht : (sortedUniqueKeys t).length = t.length := by omega
        refine List.nodup_cons.mpr ⟨?_, ih ht⟩
        intro hmem
        exact hm ((mem_sortedUniqueKeys e.1 t).mpr hmem)

/-- In a catalog with pairwise-distinct datetimes, searching for the datetime
of a member finds that member. -/
theorem find_eq_of_nodupKeys (l : List Entry) (e : Entry)
    (hnd : (l.map Prod.fst).Nodup) (he : e ∈ l) :
    l.find? (fun x => x.1 == e.1) = some e := by
  induction l with
  | nil => cases he
  | cons x xs ih =>
      rw [List.map_cons] at hnd
      rcases List.nodup_cons.mp hnd with ⟨hx, hxs⟩
      rcases List.mem_cons.mp he with rfl | he'
      · exact List.find?_cons_of_pos xs (by simp)
      · have hxe : ¬ x.1 = e.1 := by
          intro hh
          exact hx (hh ▸ List.mem_map_of_mem Prod.fst he')
        rw [List.find?_cons_of_neg xs (by simpa using hxe)]
        exact ih hxs he'

/-- The entries kept by the `np.unique`-based dedup of `_attach_files` are
exactly the first-seen entry of each datetime. -/
theorem mem_npUniqueFirst (l : List Entry) (e : Entry) :
    e ∈ npUniqueFirst l ↔ l.find? (fun x => x.1 == e.1) = some e := by
  constructor
  · intro h
    rcases List.mem_filterMap.mp h with ⟨k, _, hfind⟩
    have hpred : e.1 = k := by simpa using List.find?_some hfind
    subst hpred
    exact hfind
  · intro h
    refine List.mem_filterMap.mpr ⟨e.1, ?_, h⟩
    exact (mem_sortedUniqueKeys e.1 l).mpr
      (List.mem_map_of_mem Prod.fst (List.mem_of_find?_eq_some h))

/-- The dedup result of `_attach_files` is strictly sorted by datetime. -/
theorem sorted_lt_npUniqueFirst (l : List Entry) :
    (npUniqueFirst l).Pairwise (fun p q => p.1 < q.1) := by
  refine List.pairwise_filterMap.mpr ?_
  refine (sorted_sortedUniqueKeys l).imp ?_
  intro k k' hkk' b hb b' hb'
  have h1 : b.1 = k := by
    simpa using List.find?_some (Option.mem_def.mp hb)
  have h2 : b'.1 = k' := by
    simpa using List.find?_some (Option.mem_def.mp hb')
  rw [h1, h2]
  exact hkk'

/-- The dedup result of `_attach_files` has pairwise-distinct datetimes. -/
theorem nodupKeys_npUniqueFirst (l : List Entry) :
    ((npUniqueFirst l).map Prod.fst).Nodup := by
  exact List.pairwise_map.mpr
    ((sorted_lt_npUniqueFirst l).imp fun h => Nat.ne_of_lt h)

/-- The branchy exclusive-stop step of `__getitem__` computes
`dropIfLastGe`. -/
theorem chain_eq_dropIfLastGe (b : Nat) (l : List Entry) :
    (if 1 < l.length then
       (if b ≤ (l.getLastD (0, "")).1 then l.dropLast else l)
     else if l.length = 1 then
       (if b ≤ (l.headD (0, "")).1 then ([] : List Entry) else l)
     else l)
    = dropIfLastGe b l := by
  induction l with
  | nil => simp [dropIfLastGe]
  | cons x xs ih =>
      cases xs with
      | nil => simp [dropIfLastGe]
      | cons y t =>
          have hlen : 1 < (x :: y :: t).length := by
            simp [Nat.succ_lt_succ_iff]
          rw [if_pos hlen]
          show _ = x :: dropIfLastGe b (y :: t)
          rw [← ih]
          have hlen2 : 0 < (y :: t).length := by simp
          by_cases hc : t = []
          · subst hc
            by_cases hb : b ≤ y.1 <;> simp [hb, List.dropLast_cons₂]
          · have hlen3 : 1 < (y :: t).length := by
              cases t with
              | nil => exact absurd rfl hc
              | cons z t' => simp [Nat.succ_lt_succ_iff]
            rw [if_pos hlen3, List.getLastD_eq_getLast?,
              List.getLastD_eq_getLast?, List.getLast?_cons_cons,
              List.dropLast_cons₂]
            by_cases hb : b ≤ ((y :: t).getLast?.getD (0, "")).1 <;>
              simp [hb]

/-- `getitemDatetimeSlice` is the inclusive label slice followed by
`dropIfLastGe`. -/
theorem getitemDatetimeSlice_eq (files : List Entry) (a b : Nat) :
    getitemDatetimeSlice files a b = dropIfLastGe b (locSlice files a b) := by
  rw [← chain_eq_dropIfLastGe b (locSlice files a b)]
  rfl

/-- On a strictly sorted list bounded above by `b`, dropping the last element
when it reaches `b` is the same as filtering to datetimes below `b`. -/
theorem dropIfLastGe_eq_filter (b : Nat) (l : List Entry)
    (hs : l.Pairwise (fun p q => p.1 < q.1)) (hb : ∀ e ∈ l, e.1 ≤ b) :
    dropIfLastGe b l = l.filter (fun e => decide (e.1 < b)) := by
  induction l with
  | nil => simp [dropIfLastGe]
  | cons x xs ih =>
      cases xs with
      | nil =>
          by_cases hxb : b ≤ x.1
          · have : ¬ x.1 < b := Nat.not_lt.mpr hxb
            simp [dropIfLastGe, hxb, this]
          · have : x.1 < b := Nat.lt_of_not_le hxb
            simp [dropIfLastGe, hxb, this]
      | cons y t =>
          have h1 : x.1 < y.1 :=
            (List.pairwise_cons.mp hs).1 y (List.mem_cons_self y t)
          have h2 : y.1 ≤ b := hb y (List.mem_cons_of_mem x (List.mem_cons_self y t))
          have hxb : x.1 < b := Nat.lt_of_lt_of_le h1 h2
          show x :: dropIfLastGe b (y :: t) = _
          rw [ih (List.pairwise_cons.mp hs).2
            (fun e he => hb e (List.mem_cons_of_mem x he))]
          simp [hxb]

/-- Closed form of `_attach_files` on a non-empty input with empty-file
filtering disabled. -/
theorem attach_eq (st : FilesState) (info : List Entry)
    (hne : info.isEmpty = false) (hie : st.ignoreEmptyFiles = false) :
    attachFiles st info =
      ({ st with files := sortByKey (if dedupFlag st info then npUniqueFirst info else info) },
       if dedupFlag st info then [LogMsg.duplicateWarning, LogMsg.duplicateKeys (duplicatedKeys info)] else []) := by
  unfold attachFiles dedupFlag
  rw [hne]
  simp [hie]

/-- `_store` never changes the attached catalog itself. -/
theorem storeList_files (st : FilesState) : (storeList st).files = st.files := by
  by_cases h1 : (loadList st false).length ≠ st.files.length <;>
    by_cases h2 : loadList st false ≠ st.files <;>
      by_cases h3 : st.writeToDisk = true <;>
        simp [storeList, h1, h2, h3]

/-- After `_store` on an instance with an empty catalog, the primary slot
loads back empty. -/
theorem loadList_storeList_nil (st : FilesState) (h : st.files = []) :
    loadList (storeList st) false = [] := by
  cases hs : loadList st false with
  | nil =>
      have hst : storeList st = st := by
        unfold storeList
        rw [hs, h]
        simp
      rw [hst, hs]
  | cons a as =>
      have hst : storeList st =
          if st.writeToDisk then
            { st with diskPrevious := some (a :: as),
                      diskPrimary := some st.files }
          else
            { st with previousFileList := a :: as,
                      currentFileList := st.files } := by
        unfold storeList
        rw [hs, h]
        simp
      rw [hst]
      cases hw : st.writeToDisk
      · simp only [Bool.false_eq_true, if_false, loadList]
        cases hdp : st.diskPrimary with
        | none => simp
        | some c => cases c <;> simp [h, hw]
      · simp [loadList, h]

/-- `refresh` raises `NameError` whenever discovery returns any file: the
found-count log line evaluates `len(info)` but no name `info` is bound. -/
theorem refresh_raises (st : FilesState) (h : st.discovery ≠ []) :
    refresh st = Except.error (PyError.nameError "info") := by
  cases hd : st.discovery with
  | nil => exact absurd hd h
  | cons e es => simp [refresh, removeDataDirPath, hd]

/-- A `refresh` that completes did so on an empty discovery result, attached
the empty list, stored it, and logged the search plus the no-matches
warning. -/
theorem refresh_ok (st st1 : FilesState) (logs : List LogMsg)
    (h : refresh st = Except.ok (st1, logs)) :
    st.discovery = [] ∧ st1 = storeList { st with files := [] } ∧
      logs = [LogMsg.searching, LogMsg.noMatches] := by
  cases hd : st.discovery with
  | cons e es =>
      rw [refresh_raises st (by simp [hd])] at h
      cases h
  | nil =>
      refine ⟨rfl, ?_⟩
      simp [refresh, removeDataDirPath, hd, attachFiles] at h
      exact ⟨h.1.symm, h.2.symm⟩

/-- Under the code as written, any `get_new` call that completes returns the
empty Series: completion forces an empty discovery, whose storage leaves an
empty (zero-byte) primary slot. -/
theorem getNew_ok_result (st : FilesState) (r : List Entry) (st1 : FilesState)
    (logs : List LogMsg) (h : getNew st = Except.ok (r, st1, logs)) :
    r = [] := by
  unfold getNew at h
  cases href : refresh st with
  | error e => rw [href] at h; cases h
  | ok p =>
      obtain ⟨sta, lg⟩ := p
      rw [href] at h
      obtain ⟨hd, hst, hlg⟩ := refresh_ok st sta lg href
      have hload : loadList sta false = [] := by
        rw [hst]
        exact loadList_storeList_nil _ rfl
      simp only [hload, List.filter_nil, Except.ok.injEq,
        Prod.mk.injEq] at h
      exact h.1.symm

/-- C1: the claim says `refresh` calls discovery, strips the data path,
attaches, stores, and completes without raising, logging a found-count on a
non-empty result and a no-matches warning on an empty one.  On the code as
written this fails: whenever discovery returns at least one file, the
found-count log line evaluates `len(info)` although no name `info` is bound
in `Files.refresh` (its local variable is `new_files`), so the call raises
`NameError` before attaching; only the empty branch behaves as claimed. -/
theorem c1_refresh_name_error (st : FilesState) (h : st.discovery ≠ []) :
    refresh st = Except.error (PyError.nameError "info") ∧
    ∃ st1, refresh stPlain
      = Except.ok (st1, [LogMsg.searching, LogMsg.noMatches]) :=
  ⟨refresh_raises st h, ⟨storeList { stPlain with files := [] }, rfl⟩⟩

/-- Witness for C1 at a concrete instance whose discovery finds one file. -/
theorem c1_witness :
    refresh stFound = Except.error (PyError.nameError "info") ∧
    ∃ st1, refresh stPlain
      = Except.ok (st1, [LogMsg.searching, LogMsg.noMatches]) :=
  c1_refresh_name_error stFound (by decide)

/-- C7: the claim says `get_new` refreshes, loads the primary and previous
slots, and returns the filename set-difference.  On the code as written,
`get_new` propagates the `NameError` raised inside `refresh` whenever
discovery returns at least one file, so it never returns the claimed
difference on any instance that has files. -/
theorem c7_get_new_raises (st : FilesState) (h : st.discovery ≠ []) :
    getNew st = Except.error (PyError.nameError "info") := by
  unfold getNew
  rw [refresh_raises st h]

/-- Witness for C7 at a concrete instance whose discovery finds one file. -/
theorem c7_witness :
    getNew stFound = Except.error (PyError.nameError "info") :=
  c7_get_new_raises stFound (by decide)

/-- C9: the claim says `get_index` returns the position of a filename, and
on a miss refreshes once, retries, and raises a lookup error naming the
filename with one valid example.  On the code as written the found case
works, but the claimed error branch is unreachable: with a non-empty
discovery the refresh retry raises `NameError` (unbound `info`), and with an
empty discovery the message construction `self.files.iloc[0]` raises
`IndexError` on the now-empty catalog, so the described `ValueError` is
never produced. -/
theorem c9_get_index_behavior :
    getIndex stCatalog "b.dat" = Except.ok (1, stCatalog, []) ∧
    getIndex stCatalog "zzz.dat" = Except.error (PyError.nameError "info") ∧
    getIndex stCatalogEmptyDisc "zzz.dat" = Except.error PyError.indexError :=
  ⟨rfl, rfl, rfl⟩

/-- Counterexample for C8: on an instance whose discovery finds a file and
whose stored catalog is stale (an unchanged filesystem between any two
calls), `get_new` raises `NameError` instead of returning, so a second call
does not return an empty result. -/
theorem c8_counterexample :
    getNew stTwice = Except.error (PyError.nameError "info") := rfl

/-- C8 amended: if `get_new` is called twice in a row with no filesystem
change between the calls and both calls complete without raising (which, on
the code as written, requires the discovery result to be empty), then the
second call returns an empty result. -/
theorem c8_get_new_twice (st : FilesState) (r1 : List Entry)
    (st1 : FilesState) (l1 : List LogMsg)
    (_h1 : getNew st = Except.ok (r1, st1, l1))
    (r2 : List Entry) (st2 : FilesState) (l2 : List LogMsg)
    (h2 : getNew st1 = Except.ok (r2, st2, l2)) :
    r2 = [] :=
  getNew_ok_result st1 r2 st2 l2 h2

/-- Witness for the amended C8: both calls complete on the baseline
instance, and the second result is empty. -/
theorem c8_witness :
    getNew stPlain
      = Except.ok ([], stPlain, [LogMsg.searching, LogMsg.noMatches]) ∧
    ([] : List Entry) = [] :=
  ⟨rfl,
   c8_get_new_twice stPlain [] stPlain [LogMsg.searching, LogMsg.noMatches]
     rfl [] stPlain [LogMsg.searching, LogMsg.noMatches] rfl⟩

/-- C6: `_store` compares the current catalog with the reloaded stored
catalog (by length, then elementwise); when identical it changes nothing;
when different, in disk mode the previous slot receives the reloaded catalog
and the primary slot the current one (memory slots untouched), and in
memory mode (`write_to_disk=False`) the two in-memory slots are updated and
neither disk slot is written. -/
theorem c6_store_protocol (st : FilesState) :
    (loadList st false = st.files → storeList st = st) ∧
    (loadList st false ≠ st.files →
      (st.writeToDisk = true →
        (storeList st).diskPrevious = some (loadList st false) ∧
        (storeList st).diskPrimary = some st.files ∧
        (storeList st).currentFileList = st.currentFileList ∧
        (storeList st).previousFileList = st.previousFileList) ∧
      (st.writeToDisk = false →
        (storeList st).previousFileList = loadList st false ∧
        (storeList st).currentFileList = st.files ∧
        (storeList st).diskPrimary = st.diskPrimary ∧
        (storeList st).diskPrevious = st.diskPrevious)) := by
  constructor
  · intro heq
    have hlen : ¬ (loadList st false).length ≠ st.files.length := by
      rw [heq]
      simp
    simp [storeList, hlen, heq]
  · intro hne
    constructor
    · intro hw
      simp [storeList, hw, hne]
    · intro hw
      simp [storeList, hw, hne]

/-- Witness for C6 at a concrete instance whose catalog differs from the
stored one. -/
theorem c6_witness :
    (storeList stDiffer).diskPrevious = some (loadList stDiffer false) ∧
    (storeList stDiffer).diskPrimary = some stDiffer.files :=
  ⟨(((c6_store_protocol stDiffer).2 (by decide)).1 rfl).1,
   (((c6_store_protocol stDiffer).2 (by decide)).1 rfl).2.1⟩

/-- The catalog attached by `_attach_files` on a non-empty input, with the
empty-file filter applied when configured. -/
theorem attach_files_eq (st : FilesState) (info : List Entry)
    (hne : info.isEmpty = false) :
    (attachFiles st info).1.files =
      if st.ignoreEmptyFiles then
        (sortByKey (if dedupFlag st info then npUniqueFirst info else info)).filter
          (fun e => decide ((st.dataPath ++ e.2) ∈ st.nonemptyPaths))
      else sortByKey (if dedupFlag st info then npUniqueFirst info else info) := by
  unfold attachFiles dedupFlag filterEmptyFiles
  rw [hne]
  by_cases hie : st.ignoreEmptyFiles <;> simp [hie]

/-- `np.unique` on a non-empty catalog whose datetimes are all equal. -/
theorem sortedUniqueKeys_const (d : Nat) (l : List Entry) (hne : l ≠ [])
    (hk : ∀ e ∈ l, e.1 = d) : sortedUniqueKeys l = [d] := by
  induction l with
  | nil => exact absurd rfl hne
  | cons e t ih =>
      show insertKey e.1 (sortedUniqueKeys t) = [d]
      have he : e.1 = d := hk e (List.mem_cons_self e t)
      cases t with
      | nil => simp [sortedUniqueKeys, insertKey, he]
      | cons y t' =>
          rw [ih (by simp) (fun x hx => hk x (List.mem_cons_of_mem e hx)), he]
          simp [insertKey]

/-- C2: on a strictly sorted catalog, a slice with datetime bounds has
inclusive-start, exclusive-stop semantics (the inclusive label slice with
the final element dropped exactly when its datetime reaches the stop); on
the catalog [D0, D1, D2] the slice [D0:D2) keeps D0 and D1 and drops D2,
while an integer-bounds slice applies no datetime filtering. -/
theorem c2_datetime_slice_semantics (files : List Entry)
    (hs : files.Pairwise (fun p q => p.1 < q.1)) (a b : Nat) :
    getitemDatetimeSlice files a b
      = files.filter (fun e => decide (a ≤ e.1) && decide (e.1 < b)) ∧
    getitemDatetimeSlice catalog3 0 2 = [(0, "f0.dat"), (1, "f1.dat")] ∧
    getitemIntSlice catalog3 0 3 = catalog3 := by
  refine ⟨?_, by decide, by decide⟩
  have hb : ∀ e ∈ locSlice files a b, e.1 ≤ b := by
    intro e he
    have h2 := (List.mem_filter.mp he).2
    simp only [Bool.and_eq_true, decide_eq_true_eq] at h2
    exact h2.2
  rw [getitemDatetimeSlice_eq,
    dropIfLastGe_eq_filter b (locSlice files a b)
      (List.Pairwise.filter _ hs) hb]
  unfold locSlice
  rw [List.filter_filter]
  apply List.filter_congr
  intro e _
  by_cases ha : a ≤ e.1
  · by_cases hb2 : e.1 < b
    · simp [ha, hb2, Nat.le_of_lt hb2]
    · simp [hb2]
  · simp [ha]

/-- Witness for C2 on the three-entry catalog with the slice [D0:D2). -/
theorem c2_witness :
    getitemDatetimeSlice catalog3 0 2
      = catalog3.filter (fun e => decide (0 ≤ e.1) && decide (e.1 < 2)) ∧
    getitemDatetimeSlice catalog3 0 2 = [(0, "f0.dat"), (1, "f1.dat")] ∧
    getitemIntSlice catalog3 0 3 = catalog3 :=
  c2_datetime_slice_semantics catalog3 (by decide) 0 2

/-- C3: with empty-file filtering off, `_attach_files` on a catalog with
duplicate datetimes and no multi-file-day support keeps exactly the
first-seen entry of each datetime (membership in the result is equivalent to
being the first entry found for one's datetime, and the result is
duplicate-free), logs the duplicate warning and the duplicated datetimes,
and raises nothing; with multi-file-day declared, every entry is retained
(the result is a permutation of the input). -/
theorem c3_attach_dedup (st : FilesState) (info : List Entry)
    (hie : st.ignoreEmptyFiles = false) (hne : info ≠ []) :
    (st.multiFileDay = false →
      (∀ e : Entry, e ∈ (attachFiles st info).1.files ↔
        info.find? (fun x => x.1 == e.1) = some e) ∧
      (attachFiles st info).1.files.Nodup ∧
      ((sortedUniqueKeys info).length ≠ info.length →
        LogMsg.duplicateWarning ∈ (attachFiles st info).2 ∧
        LogMsg.duplicateKeys (duplicatedKeys info) ∈ (attachFiles st info).2)) ∧
    (st.multiFileDay = true → ((attachFiles st info).1.files).Perm info) := by
  have hne' : info.isEmpty = false := by
    cases info with
    | nil => exact absurd rfl hne
    | cons x xs => rfl
  rw [attach_eq st info hne' hie]
  constructor
  · intro hm
    by_cases hd : (sortedUniqueKeys info).length = info.length
    · have hflag : dedupFlag st info = false := by simp [dedupFlag, hd]
      have hknd : (info.map Prod.fst).Nodup := nodupKeys_of_full_length info hd
      rw [hflag]
      refine ⟨?_, ?_, ?_⟩
      · intro e
        rw [if_neg Bool.false_ne_true]
        show e ∈ sortByKey info ↔ _
        rw [(perm_sortByKey info).mem_iff]
        constructor
        · intro he
          exact find_eq_of_nodupKeys info e hknd he
        · intro hf
          exact List.mem_of_find?_eq_some hf
      · rw [if_neg Bool.false_ne_true]
        show (sortByKey info).Nodup
        exact ((perm_sortByKey info).nodup_iff).mpr
          (List.Nodup.of_map Prod.fst hknd)
      · intro hlen
        exact absurd hd hlen
    · have hflag : dedupFlag st info = true := by simp [dedupFlag, hm, hd]
      rw [hflag]
      refine ⟨?_, ?_, ?_⟩
      · intro e
        rw [if_pos rfl]
        show e ∈ sortByKey (npUniqueFirst info) ↔ _
        rw [(perm_sortByKey _).mem_iff]
        exact mem_npUniqueFirst info e
      · rw [if_pos rfl]
        show (sortByKey (npUniqueFirst info)).Nodup
        exact ((perm_sortByKey _).nodup_iff).mpr
          (List.Nodup.of_map Prod.fst (nodupKeys_npUniqueFirst info))
      · intro _
        rw [if_pos rfl]
        simp
  · intro hm
    have hflag : dedupFlag st info = false := by simp [dedupFlag, hm]
    rw [hflag, if_neg Bool.false_ne_true]
    show (sortByKey info).Perm info
    exact perm_sortByKey info

/-- Witness for C3 on a concrete catalog with a duplicated datetime. -/
theorem c3_witness :
    (attachFiles stPlain [(5, "a.dat"), (5, "b.dat"), (7, "c.dat")]).1.files.Nodup ∧
    LogMsg.duplicateWarning
      ∈ (attachFiles stPlain [(5, "a.dat"), (5, "b.dat"), (7, "c.dat")]).2 :=
  ⟨((c3_attach_dedup stPlain [(5, "a.dat"), (5, "b.dat"), (7, "c.dat")] rfl
      (by decide)).1 rfl).2.1,
   (((c3_attach_dedup stPlain [(5, "a.dat"), (5, "b.dat"), (7, "c.dat")] rfl
      (by decide)).1 rfl).2.2 (by decide)).1⟩

/-- Counterexample for C4: two records share a datetime with distinct
versions, the lower version listed first; `_attach_files` keeps the
first-seen record, which is not the maximum-version one. -/
theorem c4_counterexample :
    recLowVersion.datetime = recHighVersion.datetime ∧
    recLowVersion.version < recHighVersion.version ∧
    (attachFiles stPlain
        [toEntry recLowVersion, toEntry recHighVersion]).1.files
      = [toEntry recLowVersion] ∧
    toEntry recHighVersion ∉
      (attachFiles stPlain
        [toEntry recLowVersion, toEntry recHighVersion]).1.files := by
  exact ⟨rfl, by decide, rfl, by decide⟩

/-- C4 amended: given records sharing one datetime and multi-file-day
disabled, `_attach_files` retains exactly one record, namely the first-seen
in input order, regardless of the version numbers carried in the parsed
table (maximum-version selection belongs to the catalog builder, not to
attach). -/
theorem c4_attach_keeps_first (st : FilesState) (rs : List ParsedRecord)
    (d : Nat) (hne : rs ≠ []) (hm : st.multiFileDay = false)
    (hie : st.ignoreEmptyFiles = false) (hd : ∀ r ∈ rs, r.datetime = d) :
    (attachFiles st (rs.map toEntry)).1.files = [toEntry (rs.head hne)] := by
  cases rs with
  | nil => exact absurd rfl hne
  | cons r rt =>
      have hne' : ((r :: rt).map toEntry).isEmpty = false := rfl
      rw [attach_eq st _ hne' hie]
      have hkeys : ∀ e ∈ (r :: rt).map toEntry, e.1 = d := by
        intro e he
        rcases List.mem_map.mp he with ⟨rr, hrr, rfl⟩
        exact hd rr hrr
      have hsuk : sortedUniqueKeys ((r :: rt).map toEntry) = [d] :=
        sortedUniqueKeys_const d _ (by simp) hkeys
      cases rt with
      | nil =>
          have hsuk1 : sortedUniqueKeys [toEntry r] = [d] := hsuk
          have hflag : dedupFlag st ([r].map toEntry) = false := by
            simp [dedupFlag, hsuk1]
          rw [hflag, if_neg Bool.false_ne_true]
          show sortByKey [toEntry r] = _
          simp [sortByKey, insertByKey]
      | cons r2 rt2 =>
          have hsuk1 : sortedUniqueKeys
              (toEntry r :: toEntry r2 :: List.map toEntry rt2) = [d] := hsuk
          have hflag : dedupFlag st ((r :: r2 :: rt2).map toEntry) = true := by
            simp [dedupFlag, hm, hsuk1]
          rw [hflag, if_pos rfl]
          have hfind : List.find? (fun e => e.1 == d)
              (toEntry r :: toEntry r2 :: List.map toEntry rt2)
              = some (toEntry r) := by
            apply List.find?_cons_of_pos
            simp [toEntry, hd r (List.mem_cons_self r (r2 :: rt2))]
          show sortByKey
            ((sortedUniqueKeys ((r :: r2 :: rt2).map toEntry)).filterMap
              (fun k => ((r :: r2 :: rt2).map toEntry).find?
                (fun e => e.1 == k))) = _
          rw [hsuk]
          simp [List.filterMap_cons, List.filterMap_nil, hfind,
            sortByKey, insertByKey]

/-- Witness for the amended C4 at two concrete records. -/
theorem c4_amended_witness :
    (attachFiles stPlain
        ([recLowVersion, recHighVersion].map toEntry)).1.files
      = [toEntry recLowVersion] :=
  c4_attach_keeps_first stPlain [recLowVersion, recHighVersion] 5
    (by decide) rfl rfl (by decide)

/-- Counterexample for C5: with multi-file-day declared and two entries
sharing a datetime, the catalog attached is non-empty but not strictly
ordered by datetime. -/
theorem c5_counterexample :
    (attachFiles stMulti [(3, "a.dat"), (3, "b.dat")]).1.files ≠ [] ∧
    ¬ ((attachFiles stMulti [(3, "a.dat"), (3, "b.dat")]).1.files.Pairwise
        (fun p q => p.1 < q.1)) := by
  exact ⟨by decide, by decide⟩

/-- C5 amended: after every `_attach_files`, the catalog is ordered
non-decreasingly by datetime; when the context does not declare
multi-file-day support it is strictly ordered by datetime ascending. -/
theorem c5_attach_sorted (st : FilesState) (info : List Entry) :
    ((attachFiles st info).1.files.Pairwise (fun p q => p.1 ≤ q.1)) ∧
    (st.multiFileDay = false →
      (attachFiles st info).1.files.Pairwise (fun p q => p.1 < q.1)) := by
  by_cases hE : info.isEmpty
  · have hnil : info = [] := List.isEmpty_iff.mp hE
    subst hnil
    exact ⟨List.Pairwise.nil, fun _ => List.Pairwise.nil⟩
  · have hE' : info.isEmpty = false := Bool.eq_false_iff.mpr hE
    rw [attach_files_eq st info hE']
    set kept := if dedupFlag st info then npUniqueFirst info else info
      with hkept
    have hle : (sortByKey kept).Pairwise (fun p q => p.1 ≤ q.1) :=
      sorted_le_sortByKey kept
    constructor
    · by_cases hie : st.ignoreEmptyFiles <;> simp [hie]
      · exact List.Pairwise.filter _ hle
      · exact hle
    · intro hm
      have hknd : (kept.map Prod.fst).Nodup := by
        rw [hkept]
        by_cases hd : (sortedUniqueKeys info).length = info.length
        · have hflag : dedupFlag st info = false := by simp [dedupFlag, hd]
          rw [hflag, if_neg Bool.false_ne_true]
          exact nodupKeys_of_full_length info hd
        · have hflag : dedupFlag st info = true := by
            simp [dedupFlag, hm, hd]
          rw [hflag, if_pos rfl]
          exact nodupKeys_npUniqueFirst info
      have hsnd : ((sortByKey kept).map Prod.fst).Nodup :=
        (((perm_sortByKey kept).map Prod.fst).nodup_iff).mpr hknd
      have hstrict := strict_of_le_nodupKeys _ hle hsnd
      by_cases hie : st.ignoreEmptyFiles <;> simp [hie]
      · exact List.Pairwise.filter _ hstrict
      · exact hstrict

/-- Witness for the amended C5 on an unsorted concrete input. -/
theorem c5_witness :
    (attachFiles stPlain
        [(5, "b.dat"), (4, "a.dat"), (6, "c.dat")]).1.files.Pairwise
      (fun p q => p.1 < q.1) :=
  (c5_attach_sorted stPlain [(5, "b.dat"), (4, "a.dat"), (6, "c.dat")]).2 rfl

/-- C10: in memory mode (`write_to_disk=False`), `_load` returns the
in-memory current (or previous) list only when the corresponding stored file
exists on disk with size greater than zero, and returns an empty catalog
otherwise; consequently the store-comparison still depends on filesystem
state, as two instances identical except for the presence of the primary
disk file behave differently under `_store`. -/
theorem c10_memory_mode_gate (st : FilesState) (prev : Bool)
    (h : st.writeToDisk = false) :
    (loadList st prev =
      if hasSizedFile (if prev then st.diskPrevious else st.diskPrimary) then
        (if prev then st.previousFileList else st.currentFileList)
      else []) ∧
    storeList stMemDisk = stMemDisk ∧
    storeList stMemNoDisk ≠ stMemNoDisk ∧
    stMemNoDisk = { stMemDisk with diskPrimary := none } := by
  refine ⟨?_, by decide, by decide, rfl⟩
  cases hd : (if prev then st.diskPrevious else st.diskPrimary) with
  | none => simp [loadList, hd, hasSizedFile]
  | some c =>
      cases c with
      | nil => simp [loadList, hd, hasSizedFile]
      | cons x xs => simp [loadList, hd, hasSizedFile, h]

/-- Witness for C10 at the concrete memory-mode instance without a primary
disk file. -/
theorem c10_witness :
    (loadList stMemNoDisk false =
      if hasSizedFile
          (if false then stMemNoDisk.diskPrevious
           else stMemNoDisk.diskPrimary) then
        (if false then stMemNoDisk.previousFileList
         else stMemNoDisk.currentFileList)
      else []) ∧
    storeList stMemDisk = stMemDisk ∧
    storeList stMemNoDisk ≠ stMemNoDisk ∧
    stMemNoDisk = { stMemDisk with diskPrimary := none } :=
  c10_memory_mode_gate stMemNoDisk false rfl

end PysatFiles
